import Mathlib

/-!
Shallow embedding of `src/packages/core/src/core/openAIContentGenerator.ts`:
an OpenAI chat-completion protocol adapter consisting of the outbound turn
translator (`toOpenAIChatCompletionMessage` and its helpers), the single-shot
response mapping inside `generateContent`, and the SSE streaming decoder
inside `generateContentStream`.

Modelling conventions:
- JavaScript strings are modelled as `List Char` (one entry per Unicode
  scalar value); raw transport bytes as `List Nat` (one entry per byte).
- Thrown exceptions become `Except`/`Option` error results.
- `undefined` obtained from a property access is modelled as `none` at the
  access site; a JS TypeError (property access on `null`/`undefined`) is a
  failure of the surrounding computation.
-/

namespace OpenAIGen

/-- JSON values as produced by `JSON.parse`. Numbers are modelled as
integers only (the payloads this adapter reads carry only integer `index`
fields); object fields keep source order, and duplicate keys are resolved
last-wins on lookup, as in JavaScript. -/
inductive Json where
  | null
  | bool (b : Bool)
  | num (n : Int)
  | str (s : List Char)
  | arr (xs : List Json)
  | obj (fields : List (List Char × Json))

/-- JSON whitespace accepted between tokens by `JSON.parse`. -/
def isJsonWs (c : Char) : Bool :=
  c = ' ' || c = '\t' || c = '\n' || c = '\r'

/-- Drop leading JSON whitespace. -/
def skipWs : List Char → List Char
  | [] => []
  | c :: cs => if isJsonWs c then skipWs cs else c :: cs

/-- One-character JSON string escapes. `\uXXXX` escapes are not modelled;
no payload in this development uses them. -/
def decodeEscape (c : Char) : Option Char :=
  if c = '"' then some '"'
  else if c = '\\' then some '\\'
  else if c = '/' then some '/'
  else if c = 'n' then some '\n'
  else if c = 't' then some '\t'
  else if c = 'r' then some '\r'
  else if c = 'b' then some (Char.ofNat 8)
  else if c = 'f' then some (Char.ofNat 12)
  else none

/-- Parse the body of a JSON string literal (opening quote already
consumed); returns the decoded content and the input after the closing
quote. -/
def parseStringBody : List Char → Option (List Char × List Char)
  | [] => none
  | c :: cs =>
    if c = '"' then some ([], cs)
    else if c = '\\' then
      match cs with
      | [] => none
      | e :: cs' =>
        match decodeEscape e with
        | none => none
        | some d =>
          match parseStringBody cs' with
          | none => none
          | some (s, r) => some (d :: s, r)
    else
      match parseStringBody cs with
      | none => none
      | some (s, r) => some (c :: s, r)

/-- Decimal digit test. -/
def isDigitCh (c : Char) : Bool := '0' ≤ c && c ≤ '9'

/-- Split off a maximal run of leading decimal digits. -/
def takeDigits : List Char → List Char × List Char
  | [] => ([], [])
  | c :: cs =>
    if isDigitCh c then
      let (ds, r) := takeDigits cs
      (c :: ds, r)
    else ([], c :: cs)

/-- Value of a digit run. -/
def digitsToNat (ds : List Char) : Nat :=
  ds.foldl (fun a c => a * 10 + (c.toNat - 48)) 0

/-- Parse a JSON number. Only integer literals are modelled: a fraction or
exponent makes the parse fail (no payload in this development uses them). -/
def parseNumber (input : List Char) : Option (Int × List Char) :=
  let negRest : Bool × List Char :=
    match input with
    | c :: cs => if c = '-' then (true, cs) else (false, input)
    | [] => (false, [])
  match takeDigits negRest.2 with
  | ([], _) => none
  | (ds, r) =>
    let bad : Bool :=
      match r with
      | c :: _ => c = '.' || c = 'e' || c = 'E'
      | [] => false
    if bad then none
    else some (if negRest.1 then -(Int.ofNat (digitsToNat ds)) else Int.ofNat (digitsToNat ds), r)

/-- The left and right curly brace characters. -/
def braceL : Char := Char.ofNat 123

/-- The right curly brace character. -/
def braceR : Char := Char.ofNat 125

/-- Parsing mode: a single value, the members of an array after `[` (at
least one element remains), or the members of an object after the opening
brace (at least one field remains). -/
inductive PMode where
  | value
  | arrCont
  | objCont

/-- Parser output for the three modes. -/
inductive POut where
  | v (j : Json)
  | items (xs : List Json)
  | fields (fs : List (List Char × Json))

/-- Recursive-descent JSON parser, structurally recursive on a fuel bound
so that it evaluates by kernel reduction. Returns the parsed result and the
remaining input. -/
def parseP : Nat → PMode → List Char → Option (POut × List Char)
  | 0, _, _ => none
  | fuel+1, .value, input =>
    match skipWs input with
    | [] => none
    | c :: cs =>
      if c = '"' then
        match parseStringBody cs with
        | some (s, r) => some (.v (.str s), r)
        | none => none
      else if c = braceL then
        match skipWs cs with
        | d :: ds =>
          if d = braceR then some (.v (.obj []), ds)
          else
            match parseP fuel .objCont (d :: ds) with
            | some (.fields fs, r) => some (.v (.obj fs), r)
            | _ => none
        | [] => none
      else if c = '[' then
        match skipWs cs with
        | d :: ds =>
          if d = ']' then some (.v (.arr []), ds)
          else
            match parseP fuel .arrCont (d :: ds) with
            | some (.items xs, r) => some (.v (.arr xs), r)
            | _ => none
        | [] => none
      else if ("null".toList).isPrefixOf (c :: cs) then some (.v .null, (c :: cs).drop 4)
      else if ("true".toList).isPrefixOf (c :: cs) then some (.v (.bool true), (c :: cs).drop 4)
      else if ("false".toList).isPrefixOf (c :: cs) then some (.v (.bool false), (c :: cs).drop 5)
      else
        match parseNumber (c :: cs) with
        | some (n, r) => some (.v (.num n), r)
        | none => none
  | fuel+1, .arrCont, input =>
    match parseP fuel .value input with
    | some (.v j, r) =>
      (match skipWs r with
       | ']' :: r' => some (.items [j], r')
       | ',' :: r' =>
         match parseP fuel .arrCont r' with
         | some (.items xs, r'') => some (.items (j :: xs), r'')
         | _ => none
       | _ => none)
    | _ => none
  | fuel+1, .objCont, input =>
    match skipWs input with
    | c :: cs =>
      if c = '"' then
        match parseStringBody cs with
        | some (k, r) =>
          (match skipWs r with
           | ':' :: r' =>
             match parseP fuel .value r' with
             | some (.v j, r'') =>
               (match skipWs r'' with
                | d :: ds =>
                  if d = braceR then some (.fields [(k, j)], ds)
                  else if d = ',' then
                    match parseP fuel .objCont ds with
                    | some (.fields fs, r3) => some (.fields ((k, j) :: fs), r3)
                    | _ => none
                  else none
                | [] => none)
             | _ => none
           | _ => none)
        | none => none
      else none
    | [] => none

/-- `JSON.parse`: parse one JSON value, rejecting trailing garbage. The
fuel bound exceeds the number of recursive descents possible on the given
input. -/
def parseJson (s : List Char) : Option Json :=
  match parseP (3 * s.length + 16) .value s with
  | some (.v j, rest) => if skipWs rest = [] then some j else none
  | _ => none

/-- Last-wins field lookup, matching JS object semantics after `JSON.parse`
(with duplicate keys, the last occurrence is kept). -/
def lookupField (fs : List (List Char × Json)) (k : List Char) : Option Json :=
  (fs.reverse.find? (fun p => p.1 == k)).map (·.2)

/-- JS property access `v.k`. `none` models a thrown TypeError (reading a
property of `null`); `some none` models the value `undefined`; `some (some w)`
a present value. Property access on non-object primitives and arrays yields
`undefined` for every key this adapter reads. -/
def getFieldJS : Json → List Char → Option (Option Json)
  | .null, _ => none
  | .obj fs, k => some (lookupField fs k)
  | _, _ => some none

/-- JS index access `v[0]`, with the same convention as `getFieldJS`:
arrays yield their first element, objects their `"0"` field, non-empty
strings their first character, `null` throws, everything else gives
`undefined`. -/
def index0 : Json → Option (Option Json)
  | .null => none
  | .arr (x :: _) => some (some x)
  | .arr [] => some none
  | .obj fs => some (lookupField fs ['0'])
  | .str (c :: _) => some (some (.str [c]))
  | .str [] => some none
  | _ => some none

/-- JS truthiness of a parsed JSON value. -/
def truthy : Json → Bool
  | .null => false
  | .bool b => b
  | .num n => n != 0
  | .str s => !s.isEmpty
  | .arr _ => true
  | .obj _ => true

/-- `x || ''` where `x` is a possibly-`undefined` JS value (source lines
135 and 200: `message.content || ''` and `delta.content || ''`). -/
def jsOrEmptyStr : Option Json → Json
  | none => .str []
  | some v => if truthy v then v else .str []

/-! ## The generic (Gemini-shaped) response model

These mirror the object literals the source constructs at lines 125-142
(single-shot) and 190-207 (streaming). -/

/-- One content part of a generic candidate; `text` holds whatever JS value
`message.content || ''` / `delta.content || ''` produced. -/
structure GenPart where
  text : Json

/-- Candidate content: a role string and the parts list. -/
structure GenContent where
  role : List Char
  parts : List GenPart

/-- One generated candidate. -/
structure Candidate where
  index : Option Json
  content : GenContent
  finishReason : Option Json
  safetyRatings : List Json
  citationMetadata : Option Json

/-- Prompt-level feedback; the source always fills it with empty values. -/
structure PromptFeedback where
  blockReason : Option Json
  safetyRatings : List Json

/-- The generic response record returned to callers. -/
structure GenericResponse where
  promptFeedback : PromptFeedback
  candidates : List Candidate

/-- The response literal built at lines 125-142 and 190-207 of the source:
empty prompt feedback and one model-role candidate with a single text part. -/
def mkResponse (idx : Option Json) (text : Json) (fin : Option Json) : GenericResponse :=
  { promptFeedback := { blockReason := none, safetyRatings := [] }
    candidates := [
      { index := idx
        content := { role := "model".toList, parts := [{ text := text }] }
        finishReason := fin
        safetyRatings := []
        citationMetadata := none }] }

/-- Source lines 186-210: inside the generator's try/catch,
`JSON.parse(data)`, then `part.choices[0]`, `choice.delta`, and the yield
of one generic response with `delta.content || ''`. A result of `none`
means the catch swallowed the line (either `JSON.parse` threw, or a
TypeError was thrown while reading `choices[0]` / `.delta` / `.content`). -/
def parseStreamDelta (data : List Char) : Option GenericResponse :=
  match parseJson data with
  | none => none
  | some part =>
    match getFieldJS part ("choices".toList) with
    | none => none
    | some none => none
    | some (some choices) =>
      match index0 choices with
      | none => none
      | some none => none
      | some (some choice) =>
        match getFieldJS choice ("delta".toList) with
        | none => none
        | some none => none
        | some (some delta) =>
          match getFieldJS delta ("content".toList) with
          | none => none
          | some contentOpt =>
            some (mkResponse ((getFieldJS choice ("index".toList)).bind id)
              (jsOrEmptyStr contentOpt)
              ((getFieldJS choice ("finish_reason".toList)).bind id))

/-- Source lines 121-142: reading `responseData.choices[0]`,
`choice.message`, `message.content || ''` from the parsed single-shot body
and building the generic response. There is no try/catch on this path, so
`none` models an uncaught TypeError while reading the structure. -/
def toGenericResponseSingle (responseData : Json) : Option GenericResponse :=
  match getFieldJS responseData ("choices".toList) with
  | none => none
  | some none => none
  | some (some choices) =>
    match index0 choices with
    | none => none
    | some none => none
    | some (some choice) =>
      match getFieldJS choice ("message".toList) with
      | none => none
      | some none => none
      | some (some message) =>
        match getFieldJS message ("content".toList) with
        | none => none
        | some contentOpt =>
          some (mkResponse ((getFieldJS choice ("index".toList)).bind id)
            (jsOrEmptyStr contentOpt)
            ((getFieldJS choice ("finish_reason".toList)).bind id))

/-! ## Outbound translation (source lines 20-70) -/

/-- The backend role union (`type OpenAIRole`, line 20). -/
inductive OpenAIRole where
  | user
  | assistant
  | system
  | tool
deriving DecidableEq

/-- Failure modes of the outbound translator.
`unsupportedRole` is the explicit throw in `toOpenAIRole` (line 57), and
carries the offending role; `unsupportedPart` is the explicit
`Unsupported part type` throw (lines 46 and 69); `typeErrorUndefined` is
the implicit TypeError raised at line 39 when the turn has no parts
(`parts[0]` is `undefined` and its `.type` is read); `emptyTurn` is
modelled from the spec: the dedicated `EmptyTurnError` the spec postulates
for empty turns — the code never produces it, and the constructor exists
only so that statement can be made. -/
inductive TranslateError where
  | unsupportedRole (role : Option (List Char))
  | unsupportedPart
  | typeErrorUndefined
  | emptyTurn
deriving DecidableEq

/-- One content part of a generic turn (`Part` from the generic model):
either a text fragment or some other payload (function call, inline data,
...) with no `text` property. -/
inductive Part where
  | text (s : List Char)
  | other
deriving DecidableEq

/-- A generic conversation turn (`Content` from the generic model). Both
fields are optional in the source typings. -/
structure Content where
  role : Option (List Char)
  parts : Option (List Part)

/-- `OpenAIChatCompletionContentPart` (lines 22-25); its `type` field is
always the literal `'text'`, so only `text` is carried. -/
structure OAContentPart where
  text : List Char
deriving DecidableEq

/-- `OpenAIChatCompletionMessageParam` (lines 27-30), with the string form
of `content` (the only form the source ever builds). -/
structure OAMessage where
  role : OpenAIRole
  content : List Char
deriving DecidableEq

/-- `toOpenAIRole` (lines 49-59): user maps to user, model to assistant,
anything else (including an absent role) throws `Unsupported role`. -/
def toOpenAIRole (role : Option (List Char)) : Except TranslateError OpenAIRole :=
  if role = some ("user".toList) then .ok .user
  else if role = some ("model".toList) then .ok .assistant
  else .error (.unsupportedRole role)

/-- `toOpenAIPart` (lines 61-70): a part with a `text` property becomes a
text content part; any other part throws `Unsupported part type`. -/
def toOpenAIPart : Part → Except TranslateError OAContentPart
  | .text s => .ok { text := s }
  | .other => .error .unsupportedPart

/-- JavaScript `Array.prototype.map` with a callback that can throw: the
elements are mapped left to right and the first thrown error aborts the
whole map. -/
def mapJs {a b e : Type} (f : a → Except e b) : List a → Except e (List b)
  | [] => .ok []
  | x :: xs =>
    match f x with
    | .error err => .error err
    | .ok y =>
      match mapJs f xs with
      | .error err => .error err
      | .ok ys => .ok (y :: ys)

/-- `content.parts?.map(toOpenAIPart) || []` (line 36): map over every
part — so a non-text part anywhere in the list throws — with an absent
parts list treated as empty (an empty array is truthy in JS, so a present
empty list also stays empty). -/
def translateParts (parts : Option (List Part)) : Except TranslateError (List OAContentPart) :=
  match parts with
  | none => .ok []
  | some ps => mapJs toOpenAIPart ps

/-- `toOpenAIChatCompletionMessage` (lines 32-47). The role is translated
first; then the parts are mapped. `parts[0]` of an empty list is
`undefined`, so the `messagePart.type == 'text'` test at line 39 throws a
TypeError (`typeErrorUndefined`). When a first part exists it is
necessarily a text part (`toOpenAIPart` builds no other kind), so the
trailing `throw new Error('Unsupported part type')` at line 46 is
unreachable and the message is built from the first part's text. -/
def toOpenAIChatCompletionMessage (content : Content) : Except TranslateError OAMessage :=
  match toOpenAIRole content.role with
  | .error e => .error e
  | .ok role =>
    match translateParts content.parts with
    | .error e => .error e
    | .ok parts =>
      match parts with
      | [] => .error .typeErrorUndefined
      | p :: _ => .ok { role := role, content := p.text }

/-! ## HTTP entry points (source lines 100-164)

Request construction and transport are external collaborators; the
embedding takes the received HTTP response as a value. -/

/-- The fields of a fetch `Response` read by `generateContent`: `ok`,
`status`, `statusText`, and the body text (`response.text()`, which
`response.json()` parses). -/
structure HttpResponse where
  ok : Bool
  status : Nat
  statusText : List Char
  text : List Char

/-- The fields of a fetch `Response` read by `generateContentStream`; the
streaming body is the sequence of byte chunks the reader will deliver, or
`none` when `response.body` is null. -/
structure StreamHttpResponse where
  ok : Bool
  status : Nat
  statusText : List Char
  text : List Char
  body : Option (List (List Nat))

/-- Failure modes of the two entry points: a translation error thrown
while mapping the request contents, the `OpenAI API error: ...` throw
(lines 116-118 and 161-163) carrying its message, a rejected
`response.json()`, or a TypeError while reading the single-shot body
structure. -/
inductive GenError where
  | translate (e : TranslateError)
  | http (msg : List Char)
  | jsonParse
  | typeError

/-- The template literal
`OpenAI API error: [status] [statusText] - [errorText]` of lines 117 and
162. -/
def apiErrorMsg (status : Nat) (statusText : List Char) (errorText : List Char) : List Char :=
  "OpenAI API error: ".toList ++ (Nat.repr status).toList ++ " ".toList
    ++ statusText ++ " - ".toList ++ errorText

/-- `generateContent` (lines 100-143): translate every turn (a translation
error propagates before any transport use), require an OK status — a
non-OK status throws the `OpenAI API error` message built from status,
status text and body text — then parse the body once and apply the
single-shot mapping. -/
def generateContent (contents : List Content) (resp : HttpResponse) :
    Except GenError GenericResponse :=
  match mapJs toOpenAIChatCompletionMessage contents with
  | .error e => .error (.translate e)
  | .ok _messages =>
    if resp.ok = false then
      .error (.http (apiErrorMsg resp.status resp.statusText resp.text))
    else
      match parseJson resp.text with
      | none => .error .jsonParse
      | some data =>
        match toGenericResponseSingle data with
        | none => .error .typeError
        | some r => .ok r

/-! ## The streaming decoder (source lines 145-217)

`generateContentStream` obtains a byte reader and a `TextDecoder`, then
runs an async generator: per chunk it appends `decoder.decode(value,
{stream: true})` to a text buffer, splits the buffer on `'\n'`, holds the
last (possibly incomplete) element back as the new buffer, and processes
every complete line; a `data: ` line whose trimmed payload is `[DONE]`
returns from the generator, any other `data: ` line is parsed inside a
try/catch and yields one generic response on success. -/

/-- Incremental UTF-8 decoder state: how many continuation bytes are still
expected and the code point accumulated so far. -/
structure Utf8State where
  need : Nat
  cp : Nat
deriving DecidableEq

/-- Fresh `TextDecoder` state. -/
def utf8Init : Utf8State := ⟨0, 0⟩

/-- One byte of incremental UTF-8 decoding, emitting a scalar value when a
sequence completes. Faithful to `TextDecoder` (`utf-8`, non-fatal) on valid
input; on invalid bytes it emits U+FFFD in a simplified fashion (the WHATWG
decoder additionally re-examines some bytes, which no claim here exercises). -/
def utf8Step (st : Utf8State) (b : Nat) : Utf8State × Option Nat :=
  if st.need = 0 then
    if b < 0x80 then (st, some b)
    else if b < 0xC0 then (st, some 0xFFFD)
    else if b < 0xE0 then (⟨1, b % 0x20⟩, none)
    else if b < 0xF0 then (⟨2, b % 0x10⟩, none)
    else if b < 0xF8 then (⟨3, b % 0x08⟩, none)
    else (st, some 0xFFFD)
  else
    if 0x80 ≤ b ∧ b < 0xC0 then
      if st.need = 1 then (⟨0, 0⟩, some (st.cp * 64 + b % 0x40))
      else (⟨st.need - 1, st.cp * 64 + b % 0x40⟩, none)
    else (⟨0, 0⟩, some 0xFFFD)

/-- One step of `textDecode`, carrying the decoded characters alongside the
decoder state. -/
def dec1 (acc : Utf8State × List Char) (b : Nat) : Utf8State × List Char :=
  ((utf8Step acc.1 b).1, acc.2 ++ ((utf8Step acc.1 b).2.map Char.ofNat).toList)

/-- `decoder.decode(value, {stream: true})`: decode one chunk of bytes,
returning the advanced decoder state and the characters produced. Bytes of
a character that straddles the chunk boundary stay in the state. -/
def textDecode (st : Utf8State) (bs : List Nat) : Utf8State × List Char :=
  bs.foldl dec1 (st, [])

/-- `s.trim()` on the payload of a `data: ` line (line 183). The JS trim
strips Unicode whitespace; the ASCII whitespace characters modelled here
cover every payload this decoder can meet on its claims. -/
def jsTrim (s : List Char) : List Char :=
  ((s.dropWhile isJsonWs).reverse.dropWhile isJsonWs).reverse

/-- Processing one complete line only reads and writes the generator's
done flag and the emitted frames; `lineCore` is that action on the pair.
A line not starting with `data: ` is ignored; `data: [DONE]` (after trim)
makes the generator return; otherwise the payload is parsed and either
yields one response or is swallowed by the catch. Nothing is processed
once the generator has returned. -/
def lineCore (df : Bool × List GenericResponse) (line : List Char) :
    Bool × List GenericResponse :=
  if df.1 then df
  else if ("data: ".toList).isPrefixOf line then
    let data := line.drop 6
    if jsTrim data = "[DONE]".toList then (true, df.2)
    else
      match parseStreamDelta data with
      | some r => (df.1, df.2 ++ [r])
      | none => df
  else df

/-- Full generator state: the decoder state, the held-back partial line,
whether the generator has returned, and the responses yielded so far. -/
structure GenState where
  utf8 : Utf8State
  buffer : List Char
  done : Bool
  frames : List GenericResponse

/-- Generator state at the start of the stream. -/
def genInit : GenState := ⟨utf8Init, [], false, []⟩

/-- Process one complete line (the body of the `for` loop, lines 180-212). -/
def lineStep (s : GenState) (line : List Char) : GenState :=
  { s with done := (lineCore (s.done, s.frames) line).1
           frames := (lineCore (s.done, s.frames) line).2 }

/-- `buffer.split('\n')` followed by `buffer = lines.pop() || ''`
(lines 177-178): the complete lines in order, and the trailing remainder
(the text after the last newline) to be held back. -/
def splitLastNl : List Char → List (List Char) × List Char
  | [] => ([], [])
  | c :: cs =>
    let (ls, rem) := splitLastNl cs
    if c = '\n' then ([] :: ls, rem)
    else
      match ls with
      | [] => ([], c :: rem)
      | l :: ls' => ((c :: l) :: ls', rem)

/-- One iteration of the generator's `while` loop for a delivered chunk
(lines 171-213): nothing happens if the generator already returned
(the reader is no longer read); otherwise the chunk is decoded and
appended, the buffer is split on newlines with the trailing remainder held
back, and every complete line is processed in order. -/
def processChunk (s : GenState) (chunk : List Nat) : GenState :=
  if s.done then s
  else
    let dt := textDecode s.utf8 chunk
    let lr := splitLastNl (s.buffer ++ dt.2)
    lr.1.foldl lineStep { s with utf8 := dt.1, buffer := lr.2 }

/-- The sequence of generic responses the inner generator yields for a
given sequence of body chunks. When the chunks end (the reader reports
done) the generator breaks out of its loop and the sequence simply ends:
the held-back buffer is discarded, never flushed. -/
def runStream (chunks : List (List Nat)) : List GenericResponse :=
  (chunks.foldl processChunk genInit).frames

/-- `generateContentStream` (lines 145-217): translate every turn, require
an OK status and a non-null body — otherwise throw the `OpenAI API error`
message — then return the generator's output over the body's chunks. -/
def generateContentStream (contents : List Content) (resp : StreamHttpResponse) :
    Except GenError (List GenericResponse) :=
  match mapJs toOpenAIChatCompletionMessage contents with
  | .error e => .error (.translate e)
  | .ok _messages =>
    if resp.ok = false ∨ resp.body = none then
      .error (.http (apiErrorMsg resp.status resp.statusText resp.text))
    else
      .ok (runStream (resp.body.getD []))

/-- Exact UTF-8 well-formedness of a byte sequence (the RFC 3629 table:
correct continuation counts, no overlong forms, no surrogates, nothing
above U+10FFFF). -/
def validUtf8 : List Nat → Bool
  | [] => true
  | b :: bs =>
    if b ≤ 0x7F then validUtf8 bs
    else if 0xC2 ≤ b && b ≤ 0xDF then
      match bs with
      | c1 :: r => (0x80 ≤ c1 && c1 ≤ 0xBF) && validUtf8 r
      | [] => false
    else if b = 0xE0 then
      match bs with
      | c1 :: c2 :: r => (0xA0 ≤ c1 && c1 ≤ 0xBF) && (0x80 ≤ c2 && c2 ≤ 0xBF) && validUtf8 r
      | _ => false
    else if (0xE1 ≤ b && b ≤ 0xEC) || b = 0xEE || b = 0xEF then
      match bs with
      | c1 :: c2 :: r => (0x80 ≤ c1 && c1 ≤ 0xBF) && (0x80 ≤ c2 && c2 ≤ 0xBF) && validUtf8 r
      | _ => false
    else if b = 0xED then
      match bs with
      | c1 :: c2 :: r => (0x80 ≤ c1 && c1 ≤ 0x9F) && (0x80 ≤ c2 && c2 ≤ 0xBF) && validUtf8 r
      | _ => false
    else if b = 0xF0 then
      match bs with
      | c1 :: c2 :: c3 :: r =>
        (0x90 ≤ c1 && c1 ≤ 0xBF) && (0x80 ≤ c2 && c2 ≤ 0xBF) && (0x80 ≤ c3 && c3 ≤ 0xBF)
          && validUtf8 r
      | _ => false
    else if 0xF1 ≤ b && b ≤ 0xF3 then
      match bs with
      | c1 :: c2 :: c3 :: r =>
        (0x80 ≤ c1 && c1 ≤ 0xBF) && (0x80 ≤ c2 && c2 ≤ 0xBF) && (0x80 ≤ c3 && c3 ≤ 0xBF)
          && validUtf8 r
      | _ => false
    else if b = 0xF4 then
      match bs with
      | c1 :: c2 :: c3 :: r =>
        (0x80 ≤ c1 && c1 ≤ 0x8F) && (0x80 ≤ c2 && c2 ≤ 0xBF) && (0x80 ≤ c3 && c3 ≤ 0xBF)
          && validUtf8 r
      | _ => false
    else false

/-- Bytes of an ASCII string (for ASCII text this equals its UTF-8
encoding). -/
def asciiBytes (s : String) : List Nat :=
  s.toList.map Char.toNat

/-! ## Properties of the streaming decoder -/

/-- Decoding with an accumulated output only prepends that output. -/
theorem foldl_dec1_acc (bs : List Nat) (st : Utf8State) (out : List Char) :
    bs.foldl dec1 (st, out) = ((bs.foldl dec1 (st, [])).1, out ++ (bs.foldl dec1 (st, [])).2) := by
  induction bs generalizing st out with
  | nil => simp
  | cons b bs ih =>
    simp only [List.foldl_cons]
    have h1 : dec1 (st, out) b
        = ((utf8Step st b).1, out ++ ((utf8Step st b).2.map Char.ofNat).toList) := rfl
    have h2 : dec1 (st, []) b
        = ((utf8Step st b).1, ((utf8Step st b).2.map Char.ofNat).toList) := by
      simp [dec1]
    rw [h1, h2, ih ((utf8Step st b).1) (out ++ ((utf8Step st b).2.map Char.ofNat).toList),
      ih ((utf8Step st b).1) (((utf8Step st b).2.map Char.ofNat).toList)]
    simp

/-- Incremental decoding is chunking-insensitive: decoding `a ++ b` equals
decoding `a`, then `b` from the advanced state, concatenating the outputs. -/
theorem textDecode_append (st : Utf8State) (a b : List Nat) :
    textDecode st (a ++ b) =
      ((textDecode (textDecode st a).1 b).1,
        (textDecode st a).2 ++ (textDecode (textDecode st a).1 b).2) := by
  simp only [textDecode, List.foldl_append]
  exact foldl_dec1_acc b (List.foldl dec1 (st, []) a).1 (List.foldl dec1 (st, []) a).2

/-- A buffer without a newline splits into no complete line and itself. -/
theorem splitLastNl_noNl (l : List Char) (h : '\n' ∉ l) : splitLastNl l = ([], l) := by
  induction l with
  | nil => rfl
  | cons c cs ih =>
    simp only [List.mem_cons, not_or] at h
    have hc : ¬ c = '\n' := fun hc => h.1 hc.symm
    simp [splitLastNl, ih h.2, hc]

/-- The held-back remainder never contains a newline. -/
theorem splitLastNl_rem_noNl (l : List Char) : '\n' ∉ (splitLastNl l).2 := by
  induction l with
  | nil => simp [splitLastNl]
  | cons c cs ih =>
    rcases h : splitLastNl cs with ⟨ls, rem⟩
    rw [h] at ih
    by_cases hc : c = '\n'
    · simpa [splitLastNl, h, hc] using ih
    · cases ls with
      | nil => simp only [splitLastNl, h] at *; simpa [hc] using ⟨fun hh => hc hh.symm, ih⟩
      | cons l ls' => simpa [splitLastNl, h, hc] using ih

/-- Unfolding equation for `splitLastNl` on a cons, in projection form. -/
theorem splitLastNl_cons (c : Char) (cs : List Char) :
    splitLastNl (c :: cs) =
      (if c = '\n' then ([] :: (splitLastNl cs).1, (splitLastNl cs).2)
       else
         match (splitLastNl cs).1 with
         | [] => ([], c :: (splitLastNl cs).2)
         | l :: ls' => ((c :: l) :: ls', (splitLastNl cs).2)) := by
  rcases h : splitLastNl cs with ⟨ls, rem⟩
  simp [splitLastNl, h]

/-- Splitting off complete lines is compatible with appending more text:
the remainder of the first part is reconsidered together with the new
text. -/
theorem splitLastNl_append (u v : List Char) :
    splitLastNl (u ++ v) =
      ((splitLastNl u).1 ++ (splitLastNl ((splitLastNl u).2 ++ v)).1,
        (splitLastNl ((splitLastNl u).2 ++ v)).2) := by
  induction u with
  | nil => simp [splitLastNl]
  | cons c u ih =>
    rcases hu : splitLastNl u with ⟨ls1, rem1⟩
    by_cases hc : c = '\n'
    · rw [List.cons_append, splitLastNl_cons, splitLastNl_cons, ih, hu, if_pos hc, if_pos hc]
      rcases hv : splitLastNl (rem1 ++ v) with ⟨ls2, rem2⟩
      simp [hv]
    · rw [List.cons_append, splitLastNl_cons, splitLastNl_cons, ih, hu, if_neg hc, if_neg hc]
      rcases hv : splitLastNl (rem1 ++ v) with ⟨ls2, rem2⟩
      cases ls1 with
      | cons l t => simp [hv]
      | nil =>
        simp only [List.nil_append, hv]
        rw [List.cons_append, splitLastNl_cons, if_neg hc, hv]

/-- Canonical form of line processing: folding `lineStep` only touches the
done-flag and the frames, through the fold of `lineCore`. -/
theorem foldl_lineStep_eq (ls : List (List Char)) (u : Utf8State) (b : List Char)
    (d : Bool) (f : List GenericResponse) :
    ls.foldl lineStep ⟨u, b, d, f⟩ =
      ⟨u, b, (ls.foldl lineCore (d, f)).1, (ls.foldl lineCore (d, f)).2⟩ := by
  induction ls generalizing d f with
  | nil => rfl
  | cons l ls ih =>
    simp only [List.foldl_cons]
    rw [show lineStep ⟨u, b, d, f⟩ l = ⟨u, b, (lineCore (d, f) l).1, (lineCore (d, f) l).2⟩ from rfl]
    exact ih (lineCore (d, f) l).1 (lineCore (d, f) l).2

/-- After the generator has returned, lines are not processed. -/
theorem lineCore_done (df : Bool × List GenericResponse) (l : List Char) (h : df.1 = true) :
    lineCore df l = df := by
  simp [lineCore, h]

theorem foldl_lineCore_done (ls : List (List Char)) (df : Bool × List GenericResponse)
    (h : df.1 = true) :
    ls.foldl lineCore df = df := by
  induction ls with
  | nil => rfl
  | cons l ls ih => rw [List.foldl_cons, lineCore_done _ _ h]; exact ih

theorem foldl_lineStep_buffer (ls : List (List Char)) (s : GenState) :
    (ls.foldl lineStep s).buffer = s.buffer := by
  induction ls generalizing s with
  | nil => rfl
  | cons l ls ih => rw [List.foldl_cons, ih]; rfl

/-- Observational equivalence of generator states: same frames yielded,
same returned-flag, and — while the generator is still running — the same
full state. (After the generator returns, the decoder state and buffer can
no longer influence anything.) -/
def streamEquiv (s t : GenState) : Prop :=
  s.frames = t.frames ∧ s.done = t.done ∧ (s.done = false → s = t)

theorem streamEquiv_refl (s : GenState) : streamEquiv s s := ⟨rfl, rfl, fun _ => rfl⟩

theorem streamEquiv_symm {s t : GenState} (h : streamEquiv s t) : streamEquiv t s :=
  ⟨h.1.symm, h.2.1.symm, fun hf => (h.2.2 (h.2.1.trans hf)).symm⟩

theorem streamEquiv_trans {s t u : GenState} (h1 : streamEquiv s t) (h2 : streamEquiv t u) :
    streamEquiv s u :=
  ⟨h1.1.trans h2.1, h1.2.1.trans h2.2.1,
    fun hf => (h1.2.2 hf).trans (h2.2.2 (h1.2.1 ▸ hf))⟩

/-- Once the generator has returned, delivering further chunks changes
nothing. -/
theorem processChunk_done (s : GenState) (c : List Nat) (h : s.done = true) :
    processChunk s c = s := by
  simp [processChunk, h]

/-- `processChunk` on an explicit running state, in canonical form. -/
theorem processChunk_run (su : Utf8State) (sb : List Char) (sf : List GenericResponse)
    (c : List Nat) :
    processChunk ⟨su, sb, false, sf⟩ c =
      ⟨(textDecode su c).1, (splitLastNl (sb ++ (textDecode su c).2)).2,
        ((splitLastNl (sb ++ (textDecode su c).2)).1.foldl lineCore (false, sf)).1,
        ((splitLastNl (sb ++ (textDecode su c).2)).1.foldl lineCore (false, sf)).2⟩ := by
  have h0 : processChunk ⟨su, sb, false, sf⟩ c =
      (splitLastNl (sb ++ (textDecode su c).2)).1.foldl lineStep
        ⟨(textDecode su c).1, (splitLastNl (sb ++ (textDecode su c).2)).2, false, sf⟩ := by
    simp [processChunk]
  rw [h0]
  exact foldl_lineStep_eq _ _ _ _ _

/-- Key step for chunking-invariance: one chunk `a ++ b` is
observationally the same as the chunk `a` followed by the chunk `b`. -/
theorem processChunk_append (s : GenState) (a b : List Nat) :
    streamEquiv (processChunk s (a ++ b)) (processChunk (processChunk s a) b) := by
  obtain ⟨su, sb, sd, sf⟩ := s
  cases sd with
  | true =>
    rw [processChunk_done _ _ rfl, processChunk_done _ _ rfl, processChunk_done _ _ rfl]
    exact streamEquiv_refl _
  | false =>
    rcases hta : textDecode su a with ⟨u1, t1⟩
    rcases htb : textDecode u1 b with ⟨u2, t2⟩
    have hab : textDecode su (a ++ b) = (u2, t1 ++ t2) := by
      rw [textDecode_append, hta]; simp [htb]
    rcases h1 : splitLastNl (sb ++ t1) with ⟨L1, R1⟩
    rcases h2 : splitLastNl (R1 ++ t2) with ⟨L2, R2⟩
    have hsplit : splitLastNl (sb ++ (t1 ++ t2)) = (L1 ++ L2, R2) := by
      rw [← List.append_assoc, splitLastNl_append, h1]; simp [h2]
    have hL : processChunk ⟨su, sb, false, sf⟩ (a ++ b) =
        ⟨u2, R2, ((L1 ++ L2).foldl lineCore (false, sf)).1,
          ((L1 ++ L2).foldl lineCore (false, sf)).2⟩ := by
      rw [processChunk_run, hab, hsplit]
    have hs1 : processChunk ⟨su, sb, false, sf⟩ a =
        ⟨u1, R1, (L1.foldl lineCore (false, sf)).1, (L1.foldl lineCore (false, sf)).2⟩ := by
      rw [processChunk_run, hta, h1]
    rcases hdf : L1.foldl lineCore (false, sf) with ⟨d1, f1⟩
    have hLL : (L1 ++ L2).foldl lineCore (false, sf) = L2.foldl lineCore (d1, f1) := by
      rw [List.foldl_append, hdf]
    rw [hL, hs1, hdf, hLL]
    cases d1 with
    | true =>
      rw [processChunk_done _ _ rfl, foldl_lineCore_done _ _ rfl]
      exact ⟨rfl, rfl, fun hf => absurd hf (by simp)⟩
    | false =>
      rw [processChunk_run, htb, h2]
      exact streamEquiv_refl _

theorem streamEquiv_processChunk {s t : GenState} (h : streamEquiv s t) (c : List Nat) :
    streamEquiv (processChunk s c) (processChunk t c) := by
  by_cases hd : s.done = true
  · have ht : t.done = true := h.2.1 ▸ hd
    rw [processChunk_done s c hd, processChunk_done t c ht]; exact h
  · rw [h.2.2 (eq_false_of_ne_true hd)]; exact streamEquiv_refl _

/-- The buffer invariant: the held-back partial line never contains a
newline. -/
theorem processChunk_buffer_noNl {s : GenState} (h : '\n' ∉ s.buffer) (c : List Nat) :
    '\n' ∉ (processChunk s c).buffer := by
  by_cases hd : s.done = true
  · rw [processChunk_done s c hd]; exact h
  · simp only [processChunk, eq_false_of_ne_true hd, Bool.false_eq_true, if_false]
    rw [foldl_lineStep_buffer]
    exact splitLastNl_rem_noNl _

/-- Chunked processing is observationally the same as processing the
concatenation as one chunk. -/
theorem foldl_processChunk_join (cs : List (List Nat)) (s : GenState) (h : '\n' ∉ s.buffer) :
    streamEquiv (cs.foldl processChunk s) (processChunk s cs.flatten) := by
  induction cs generalizing s with
  | nil =>
    simp only [List.foldl_nil, List.flatten_nil]
    by_cases hd : s.done = true
    · rw [processChunk_done s _ hd]; exact streamEquiv_refl s
    · have hd0 : s.done = false := eq_false_of_ne_true hd
      have hnil : processChunk s [] = s := by
        simp only [processChunk, hd0, Bool.false_eq_true, if_false]
        have : textDecode s.utf8 [] = (s.utf8, []) := rfl
        rw [this]
        simp only [List.append_nil, splitLastNl_noNl s.buffer h, List.foldl_nil]
        rw [← hd0]
      rw [hnil]; exact streamEquiv_refl s
  | cons c cs ih =>
    have h1 : '\n' ∉ (processChunk s c).buffer := processChunk_buffer_noNl h c
    simp only [List.foldl_cons, List.flatten_cons]
    exact streamEquiv_trans (ih (processChunk s c) h1)
      (streamEquiv_symm (processChunk_append s c cs.flatten))

/-- The buffer invariant holds along any run of the generator. -/
theorem foldl_processChunk_noNl (chunks : List (List Nat)) (s : GenState)
    (hs : '\n' ∉ s.buffer) : '\n' ∉ (chunks.foldl processChunk s).buffer := by
  induction chunks generalizing s with
  | nil => exact hs
  | cons c cs ih =>
    rw [List.foldl_cons]
    exact ih _ (processChunk_buffer_noNl hs c)

/-! ## Concrete streaming inputs used by the claims -/

set_option maxRecDepth 100000

/-- A valid delta line carrying the given content. -/
def lineHel : String :=
  "data: \x7b\"choices\":[\x7b\"index\":0,\"delta\":\x7b\"content\":\"Hel\"\x7d,\"finish_reason\":null\x7d]\x7d\n"

/-- A valid delta line with content "lo". -/
def lineLo : String :=
  "data: \x7b\"choices\":[\x7b\"index\":0,\"delta\":\x7b\"content\":\"lo\"\x7d,\"finish_reason\":null\x7d]\x7d\n"

/-- A valid delta line with content "one". -/
def lineOne : String :=
  "data: \x7b\"choices\":[\x7b\"index\":0,\"delta\":\x7b\"content\":\"one\"\x7d,\"finish_reason\":null\x7d]\x7d\n"

/-- A valid delta line with content "two". -/
def lineTwo : String :=
  "data: \x7b\"choices\":[\x7b\"index\":0,\"delta\":\x7b\"content\":\"two\"\x7d,\"finish_reason\":null\x7d]\x7d\n"

/-- The terminator sentinel line. -/
def lineDone : String := "data: [DONE]\n"

/-- A data line whose payload is not valid JSON. -/
def lineBadJson : String := "data: oops not json\n"

/-- The expected response for a delta line with the given content. -/
def respOf (s : String) : GenericResponse :=
  mkResponse (some (.num 0)) (.str s.toList) (some .null)

/-- The body for claim C7: two deltas then the sentinel. -/
def bodyC7 : List Nat := asciiBytes (lineHel ++ lineLo ++ lineDone)

/-! ## The claims -/

/-- C7: a streaming body of two delta lines with contents "Hel" and "lo"
followed by the terminator sentinel yields exactly the two generic
responses with texts "Hel" then "lo", in order, and the sequence then ends:
the sentinel ends the sequence immediately, so any bytes (hence any lines)
after it are never processed and yield nothing. -/
theorem two_deltas_then_done :
    runStream [bodyC7] = [respOf "Hel", respOf "lo"] ∧
    ∀ extra : List Nat, runStream [bodyC7 ++ extra] = [respOf "Hel", respOf "lo"] := by
  have hbase : runStream [bodyC7] = [respOf "Hel", respOf "lo"] := by rfl
  refine ⟨hbase, fun extra => ?_⟩
  have h1 := (processChunk_append genInit bodyC7 extra).1
  have hdone : (processChunk genInit bodyC7).done = true := by rfl
  have h2 := processChunk_done (processChunk genInit bodyC7) extra hdone
  have h3 : runStream [bodyC7 ++ extra] = (processChunk genInit (bodyC7 ++ extra)).frames := rfl
  rw [h3, h1, h2]
  exact hbase

/-- C6: a streaming line whose payload fails to parse as JSON does not
terminate the sequence: a body with one malformed line between two valid
delta lines (followed by the sentinel) yields exactly the two valid
responses in order, and the malformed line yields nothing. -/
theorem malformed_line_skipped :
    runStream [asciiBytes (lineOne ++ lineBadJson ++ lineTwo ++ lineDone)] =
      [respOf "one", respOf "two"] ∧
    parseJson ("oops not json".toList) = none ∧
    parseStreamDelta ("oops not json".toList) = none := by
  exact ⟨by rfl, by rfl, by rfl⟩

/-- C10: a line whose payload parses as JSON but lacks the expected
structure (no `choices` array, empty `choices`, or a first choice without a
`delta`) is swallowed exactly like unparseable JSON: each such payload
parses, yields no response, and a body containing all three between two
valid delta lines yields exactly the two valid responses in order. -/
theorem structured_invalid_lines_skipped :
    runStream [asciiBytes (lineOne ++ "data: \x7b\x7d\n" ++ "data: \x7b\"choices\":[]\x7d\n"
        ++ "data: \x7b\"choices\":[\x7b\"index\":0\x7d]\x7d\n" ++ lineTwo ++ lineDone)] =
      [respOf "one", respOf "two"] ∧
    (parseJson ("\x7b\x7d".toList)).isSome = true ∧
    parseStreamDelta ("\x7b\x7d".toList) = none ∧
    (parseJson ("\x7b\"choices\":[]\x7d".toList)).isSome = true ∧
    parseStreamDelta ("\x7b\"choices\":[]\x7d".toList) = none ∧
    (parseJson ("\x7b\"choices\":[\x7b\"index\":0\x7d]\x7d".toList)).isSome = true ∧
    parseStreamDelta ("\x7b\"choices\":[\x7b\"index\":0\x7d]\x7d".toList) = none := by
  exact ⟨by rfl, by rfl, by rfl, by rfl, by rfl, by rfl, by rfl⟩

/-- C1: for every well-formed (valid UTF-8) streaming byte sequence and
every way of splitting it into consecutive chunks — including splits in the
middle of a line and in the middle of a multi-byte character — the decoder
yields exactly the same ordered sequence of generic responses as decoding
the whole sequence as a single chunk. -/
theorem generateContentStream_chunk_invariant (chunks : List (List Nat))
    (_h : validUtf8 chunks.flatten = true) :
    runStream chunks = runStream [chunks.flatten] := by
  have he := foldl_processChunk_join chunks genInit (by simp [genInit])
  have h1 : runStream [chunks.flatten] = (processChunk genInit chunks.flatten).frames := rfl
  rw [h1]
  exact he.1

/-- First half of a delta line whose content is "é" (UTF-8 `C3 A9`), cut
immediately after the leading byte `C3` of the two-byte character. -/
def mbChunkA : List Nat :=
  asciiBytes "data: \x7b\"choices\":[\x7b\"index\":0,\"delta\":\x7b\"content\":\"" ++ [0xC3]

/-- Second half: the trailing byte `A9`, the rest of the line, and the
sentinel. -/
def mbChunkB : List Nat :=
  [0xA9] ++ asciiBytes ("\"\x7d,\"finish_reason\":null\x7d]\x7d\n" ++ lineDone)

/-- Witness for C1 at a concrete split that lands mid-line and mid-way
through a multi-byte character. -/
theorem chunk_invariant_witness :
    runStream [mbChunkA, mbChunkB] = runStream [[mbChunkA, mbChunkB].flatten] :=
  generateContentStream_chunk_invariant [mbChunkA, mbChunkB] (by decide)

/-- C8: the decoder never emits a frame derived from an incomplete line.
Appending a final chunk whose decoded text contains no newline (in
particular, a stream that ends mid-line without the sentinel) yields
no additional frame — the held-back remainder is never interpreted — and,
while the generator is still running, that remainder is exactly the old
buffer extended by the new text, held back for a later chunk. -/
theorem partial_line_never_flushed (chunks : List (List Nat)) (t : List Nat)
    (h : '\n' ∉ (textDecode (chunks.foldl processChunk genInit).utf8 t).2) :
    runStream (chunks ++ [t]) = runStream chunks ∧
    ((chunks.foldl processChunk genInit).done = false →
      ((chunks ++ [t]).foldl processChunk genInit).buffer =
        (chunks.foldl processChunk genInit).buffer ++
          (textDecode (chunks.foldl processChunk genInit).utf8 t).2) := by
  have hnob : '\n' ∉ (chunks.foldl processChunk genInit).buffer :=
    foldl_processChunk_noNl chunks genInit (by simp [genInit])
  set s := chunks.foldl processChunk genInit with hsdef
  have hfold : (chunks ++ [t]).foldl processChunk genInit = processChunk s t := by
    rw [List.foldl_append]
    rfl
  by_cases hd : s.done = true
  · constructor
    · rw [runStream, hfold, processChunk_done s t hd]
      rfl
    · exact fun hf => absurd hd (by rw [hf]; exact Bool.false_ne_true)
  · have hd0 : s.done = false := eq_false_of_ne_true hd
    have he : s = ⟨s.utf8, s.buffer, false, s.frames⟩ := by rw [← hd0]
    have hsplit : splitLastNl (s.buffer ++ (textDecode s.utf8 t).2) =
        ([], s.buffer ++ (textDecode s.utf8 t).2) := by
      refine splitLastNl_noNl _ (fun hmem => ?_)
      rcases List.mem_append.mp hmem with hm | hm
      · exact hnob hm
      · exact h hm
    have hrun := processChunk_run s.utf8 s.buffer s.frames t
    rw [← he] at hrun
    rw [hsplit] at hrun
    constructor
    · have hfr : runStream (chunks ++ [t]) = (processChunk s t).frames := by rw [runStream, hfold]
      rw [hfr, hrun]
      rfl
    · intro _
      rw [hfold, hrun]

/-- Witness for C8: one complete delta line followed by a final chunk that
is only the beginning of a line — the partial line yields nothing. -/
theorem partial_line_witness :
    runStream ([asciiBytes lineOne] ++ [asciiBytes "data: \x7b\"choi"]) =
      runStream [asciiBytes lineOne] :=
  (partial_line_never_flushed [asciiBytes lineOne] (asciiBytes "data: \x7b\"choi")
    (by decide)).1

/-- A single-shot backend body echoing the given content: one choice whose
`message.content` is exactly that string. -/
def echoBody (c : List Char) : Json :=
  .obj [("choices".toList,
    .arr [.obj [("index".toList, .num 0),
                ("message".toList, .obj [("content".toList, .str c)]),
                ("finish_reason".toList, .null)]])]

/-- `x || ''` on an echoed string is that string. -/
theorem jsOrEmptyStr_str (t : List Char) : jsOrEmptyStr (some (.str t)) = .str t := by
  cases t with
  | nil => rfl
  | cons a as => rfl

/-- C2: for every turn whose role is user or model and whose parts are a
single text part, translating it outbound and rebuilding a generic response
from an echoed single-shot body whose `message.content` equals the
translated content yields a candidate whose single part's text is exactly
the original turn's text. -/
theorem roundtrip_single_text (r t : List Char)
    (h : r = "user".toList ∨ r = "model".toList) :
    ∃ m : OAMessage,
      toOpenAIChatCompletionMessage ⟨some r, some [Part.text t]⟩ = .ok m ∧
      m.content = t ∧
      toGenericResponseSingle (echoBody m.content) =
        some (mkResponse (some (.num 0)) (.str t) (some .null)) := by
  have hecho : toGenericResponseSingle (echoBody t) =
      some (mkResponse (some (.num 0)) (jsOrEmptyStr (some (.str t))) (some .null)) := rfl
  rcases h with h | h <;> subst h
  · exact ⟨⟨.user, t⟩, rfl, rfl, by rw [hecho, jsOrEmptyStr_str]⟩
  · exact ⟨⟨.assistant, t⟩, rfl, rfl, by rw [hecho, jsOrEmptyStr_str]⟩

/-- Witness for C2 at the concrete turn (user, "hi"). -/
theorem roundtrip_witness :
    ∃ m : OAMessage,
      toOpenAIChatCompletionMessage ⟨some ("user".toList), some [Part.text ("hi".toList)]⟩
        = .ok m ∧
      m.content = "hi".toList ∧
      toGenericResponseSingle (echoBody m.content) =
        some (mkResponse (some (.num 0)) (.str ("hi".toList)) (some .null)) :=
  roundtrip_single_text ("user".toList) ("hi".toList) (Or.inl rfl)

/-- C3 counterexample: on a user turn with an empty parts list the
translation fails with the implicit TypeError from reading `.type` of
`parts[0]` (which is `undefined`), not with a dedicated empty-turn error. -/
theorem empty_turn_counterexample :
    toOpenAIChatCompletionMessage ⟨some ("user".toList), some []⟩
      = .error .typeErrorUndefined ∧
    ¬ toOpenAIChatCompletionMessage ⟨some ("user".toList), some []⟩
      = .error .emptyTurn := by
  refine ⟨rfl, fun h => ?_⟩
  have h2 : (Except.error TranslateError.typeErrorUndefined : Except TranslateError OAMessage)
      = Except.error TranslateError.emptyTurn := h
  exact TranslateError.noConfusion (Except.error.inj h2)

/-- C3 (amended): for every turn with a supported role and an empty or
absent parts list, the translation fails — but with the generic TypeError
of an undefined-property access (`parts[0].type`), not with a dedicated
empty-turn error. -/
theorem empty_turn_type_error (role : Option (List Char)) (parts : Option (List Part))
    (hrole : role = some ("user".toList) ∨ role = some ("model".toList))
    (hparts : parts = none ∨ parts = some []) :
    toOpenAIChatCompletionMessage ⟨role, parts⟩ = .error .typeErrorUndefined := by
  rcases hrole with h | h <;> rcases hparts with h2 | h2 <;> subst h <;> subst h2 <;> rfl

/-- Witness for the amended C3 at a model turn with an absent parts list. -/
theorem empty_turn_witness :
    toOpenAIChatCompletionMessage ⟨some ("model".toList), none⟩
      = .error .typeErrorUndefined :=
  empty_turn_type_error (some ("model".toList)) none (Or.inr rfl) (Or.inl rfl)

/-- C4 counterexample: a turn whose first part is text but whose second
part is not does not succeed — the map over all parts throws
`Unsupported part type` — so parts beyond the first can be a cause of
failure. -/
theorem later_part_counterexample :
    toOpenAIChatCompletionMessage
        ⟨some ("user".toList), some [Part.text ("a".toList), Part.other]⟩
      = .error .unsupportedPart ∧
    ¬ toOpenAIChatCompletionMessage
        ⟨some ("user".toList), some [Part.text ("a".toList), Part.other]⟩
      = .ok ⟨.user, "a".toList⟩ := by
  refine ⟨rfl, fun h => ?_⟩
  have h2 : (Except.error TranslateError.unsupportedPart : Except TranslateError OAMessage)
      = Except.ok ⟨.user, "a".toList⟩ := h
  exact Except.noConfusion h2

/-- C4 (amended): for every turn with a translatable role whose first part
is text and whose remaining parts are all text, the translation succeeds
and the message content is exactly the first part's text (the later text
parts are ignored); a non-text part anywhere in the list, not only first,
makes the translation fail instead. -/
theorem first_text_part_used (role : Option (List Char)) (oarole : OpenAIRole)
    (t : List Char) (rest : List Part)
    (hrole : toOpenAIRole role = .ok oarole)
    (hrest : ∀ p ∈ rest, ∃ s, p = Part.text s) :
    toOpenAIChatCompletionMessage ⟨role, some (Part.text t :: rest)⟩ =
      .ok ⟨oarole, t⟩ := by
  have hmapJs : ∃ l, mapJs toOpenAIPart rest = Except.ok l := by
    induction rest with
    | nil => exact ⟨[], rfl⟩
    | cons p ps ih =>
      obtain ⟨s, hs⟩ := hrest p (List.mem_cons_self p ps)
      obtain ⟨l, hl⟩ := ih (fun q hq => hrest q (List.mem_cons_of_mem p hq))
      subst hs
      exact ⟨⟨s⟩ :: l, by simp [mapJs, toOpenAIPart, hl]⟩
  obtain ⟨l, hl⟩ := hmapJs
  have hparts : translateParts (some (Part.text t :: rest)) = Except.ok (⟨t⟩ :: l) := by
    simp [translateParts, mapJs, toOpenAIPart, hl]
  simp only [toOpenAIChatCompletionMessage, hrole, hparts]

/-- Witness for the amended C4: two text parts; the second is ignored. -/
theorem first_text_part_witness :
    toOpenAIChatCompletionMessage
        ⟨some ("user".toList), some [Part.text ("a".toList), Part.text ("b".toList)]⟩
      = .ok ⟨.user, "a".toList⟩ :=
  first_text_part_used (some ("user".toList)) .user ("a".toList) [Part.text ("b".toList)]
    rfl (by intro p hp; simp at hp; subst hp; exact ⟨_, rfl⟩)

/-- C5: the outbound role mapping sends user to user and model to
assistant; every other role value (tool in particular, or an absent role)
fails with `Unsupported role`; and every message the translator produces
has role user or assistant. -/
theorem role_mapping_exhaustive :
    toOpenAIRole (some ("user".toList)) = .ok .user ∧
    toOpenAIRole (some ("model".toList)) = .ok .assistant ∧
    (∀ r : Option (List Char), r ≠ some ("user".toList) → r ≠ some ("model".toList) →
      toOpenAIRole r = .error (.unsupportedRole r)) ∧
    (∀ (c : Content) (m : OAMessage),
      toOpenAIChatCompletionMessage c = .ok m → m.role = .user ∨ m.role = .assistant) := by
  refine ⟨rfl, rfl, ?_, ?_⟩
  · intro r h1 h2
    unfold toOpenAIRole
    rw [if_neg h1, if_neg h2]
  · intro c m h
    rcases hrole : toOpenAIRole c.role with e | ρ
    · have hc : toOpenAIChatCompletionMessage c = .error e := by
        unfold toOpenAIChatCompletionMessage
        rw [hrole]
      rw [hc] at h
      exact Except.noConfusion h
    · have hρ : ρ = .user ∨ ρ = .assistant := by
        unfold toOpenAIRole at hrole
        split_ifs at hrole with hu hm
        · exact Or.inl (Except.ok.inj hrole).symm
        · exact Or.inr (Except.ok.inj hrole).symm
      rcases hparts : translateParts c.parts with e2 | parts
      · have hc : toOpenAIChatCompletionMessage c = .error e2 := by
          unfold toOpenAIChatCompletionMessage
          rw [hrole, hparts]
        rw [hc] at h
        exact Except.noConfusion h
      · cases parts with
        | nil =>
          have hc : toOpenAIChatCompletionMessage c = .error .typeErrorUndefined := by
            unfold toOpenAIChatCompletionMessage
            rw [hrole, hparts]
          rw [hc] at h
          exact Except.noConfusion h
        | cons p ps =>
          have hc : toOpenAIChatCompletionMessage c = .ok ⟨ρ, p.text⟩ := by
            unfold toOpenAIChatCompletionMessage
            rw [hrole, hparts]
          rw [hc] at h
          have hm2 : m = ⟨ρ, p.text⟩ := (Except.ok.inj h).symm
          rw [hm2]
          exact hρ

/-- Witness for C5 at the concrete role tool. -/
theorem role_mapping_witness :
    toOpenAIRole (some ("tool".toList)) = .error (.unsupportedRole (some ("tool".toList))) :=
  role_mapping_exhaustive.2.2.1 (some ("tool".toList)) (by decide) (by decide)

/-- C9: every backend reply with a non-OK status makes `generateContent`
and `generateContentStream` fail with the `OpenAI API error` message, no
generic response being produced; and that message contains the decimal
status code, the status text, and the raw body text verbatim as
contiguous substrings. -/
theorem http_error_surfaces_status (contents : List Content) (ms : List OAMessage)
    (resp : HttpResponse) (sresp : StreamHttpResponse)
    (hms : mapJs toOpenAIChatCompletionMessage contents = .ok ms)
    (h1 : resp.ok = false) (h2 : sresp.ok = false) :
    generateContent contents resp =
      .error (.http (apiErrorMsg resp.status resp.statusText resp.text)) ∧
    generateContentStream contents sresp =
      .error (.http (apiErrorMsg sresp.status sresp.statusText sresp.text)) ∧
    (∀ (st : Nat) (stx bt : List Char),
      (∃ p q, p ++ (Nat.repr st).toList ++ q = apiErrorMsg st stx bt) ∧
      (∃ p q, p ++ stx ++ q = apiErrorMsg st stx bt) ∧
      (∃ p q, p ++ bt ++ q = apiErrorMsg st stx bt)) := by
  refine ⟨?_, ?_, ?_⟩
  · simp only [generateContent, hms, h1]
    rfl
  · simp only [generateContentStream, hms, h2]
    simp
  · intro st stx bt
    refine ⟨⟨"OpenAI API error: ".toList, " ".toList ++ stx ++ " - ".toList ++ bt, ?_⟩,
      ⟨"OpenAI API error: ".toList ++ (Nat.repr st).toList ++ " ".toList, " - ".toList ++ bt, ?_⟩,
      ⟨"OpenAI API error: ".toList ++ (Nat.repr st).toList ++ " ".toList ++ stx ++ " - ".toList,
        [], ?_⟩⟩ <;>
      simp [apiErrorMsg]

/-- Witness for C9: status 401 Unauthorized with body "invalid key". -/
theorem http_error_witness :
    generateContent [] ⟨false, 401, "Unauthorized".toList, "invalid key".toList⟩ =
      .error (.http (apiErrorMsg 401 ("Unauthorized".toList) ("invalid key".toList))) :=
  (http_error_surfaces_status [] [] ⟨false, 401, "Unauthorized".toList, "invalid key".toList⟩
    ⟨false, 401, "Unauthorized".toList, "invalid key".toList, some []⟩ rfl rfl rfl).1

end OpenAIGen
